import Mathlib

/-!
Verification development for the BroBuild part-selection engine
(src/engine/checker.py, src/engine/autobuilder.py, src/engine/database.py).

Modelling conventions, used consistently below:
* Python strings are Lean `String`; the string operations the engine uses
  (substring test `in`, `startswith`, `strip`, `replace`, lower-casing,
  whitespace removal, regex digit scans) are implemented structurally on
  `List Char` so that every definition evaluates inside the kernel.
  The engine only ever feeds ASCII data to `lower()` and `\s`/`\d`/`\w`
  regex classes, so the ASCII reading of those classes is used.
* Python numbers that hold money (budgets, prices, budget splits) are
  exact fractions `Frac` (integer numerator and denominator, denominator
  positive for every value the code constructs); Python float literals
  such as `0.20` are taken at their decimal value.  TDP and wattage
  values are `Int`; the float comparison `psu * 0.7 < total` is the exact
  rational comparison `7 * psu < 10 * total`, and `int(x / 0.7)` is the
  exact truncated division `Int.tdiv (10 * x) 7`.
* A Python dict record is projected to the fixed set of keys the engine
  reads (`Part`); a key that may be absent is an `Option` field.  For the
  enrichment pass, where records are treated as open dictionaries, a
  record is an association list `Record` with first-occurrence lookup and
  in-place update, exactly the observable behaviour of a Python dict.
* `try/except` blocks are modelled by `Option`-valued parsing: a failing
  `int(...)` makes the whole protected block take its `except` branch.
-/

namespace BroBuild

/-! ### Python string primitives -/

/-- ASCII lower-casing of one character, the effect of Python `str.lower`
on the ASCII data the engine handles. -/
def lowerChar (c : Char) : Char :=
  if 65 ≤ c.toNat ∧ c.toNat ≤ 90 then Char.ofNat (c.toNat + 32) else c

/-- Python `str.lower` (ASCII fragment). -/
def lowerStr (s : String) : String :=
  String.mk (s.data.map lowerChar)

/-- The characters matched by the regex class `\s` (ASCII fragment). -/
def isPyWs (c : Char) : Bool :=
  c == ' ' || c == '\t' || c == '\n' || c == '\r' || c == '\x0b' || c == '\x0c'

/-- Python `re.sub(r"\s+", "", s)`: remove every whitespace character. -/
def removeWs (s : String) : String :=
  String.mk (s.data.filter (fun c => !(isPyWs c)))

/-- Boolean list-prefix test (`l₁` is a prefix of `l₂`). -/
def prefixOfB : List Char → List Char → Bool
  | [], _ => true
  | _ :: _, [] => false
  | a :: as, b :: bs => a == b && prefixOfB as bs

/-- Boolean contiguous-sublist test, the meaning of Python `needle in hay`
for strings. -/
def infixB (n : List Char) : List Char → Bool
  | [] => n.isEmpty
  | c :: rest => prefixOfB n (c :: rest) || infixB n rest

/-- Python `needle in hay` on strings. -/
def pyIn (needle hay : String) : Bool :=
  infixB needle.data hay.data

/-- Python `s.startswith(p)`. -/
def pyStartswith (s p : String) : Bool :=
  prefixOfB p.data s.data

/-- Python `s.strip()` on a character list (ASCII whitespace). -/
def trimChars (l : List Char) : List Char :=
  ((l.dropWhile isPyWs).reverse.dropWhile isPyWs).reverse

/-- Python `s.strip()`. -/
def pyStrip (s : String) : String :=
  String.mk (trimChars s.data)

/-- Fuel-driven worker for `.replace(pat, "")`: delete non-overlapping
occurrences of `pat` left to right.  The fuel starts at the list length,
which is enough because every step consumes at least one character. -/
def removeOccFuel (pat : List Char) : Nat → List Char → List Char
  | _, [] => []
  | 0, l => l
  | fuel + 1, c :: rest =>
    if !pat.isEmpty && prefixOfB pat (c :: rest) then
      removeOccFuel pat fuel ((c :: rest).drop pat.length)
    else
      c :: removeOccFuel pat fuel rest

/-- Python `s.replace(pat, "")` for a non-empty pattern. -/
def pyRemove (s pat : String) : String :=
  String.mk (removeOccFuel pat.data s.data.length s.data)

/-! ### Socket normalization (`_normalize_socket`, checker.py lines 3-36;
the byte-identical module-local copies in autobuilder.py and database.py
are this same function) -/

/-- Leftmost match of the regex `lga(\d+)`: the maximal digit run directly
following the first occurrence of `lga` that is followed by at least one
digit. -/
def searchLga : List Char → Option (List Char)
  | [] => none
  | c :: rest =>
    match c :: rest with
    | 'l' :: 'g' :: 'a' :: tail =>
      let ds := tail.takeWhile Char.isDigit
      if ds.isEmpty then searchLga rest else some ds
    | _ => searchLga rest

/-- Leftmost match of the regex `(\d{4})`: the first four consecutive
digits. -/
def searchFourDigits : List Char → Option (List Char)
  | [] => none
  | c :: rest =>
    match c :: rest with
    | a :: b :: d :: e :: _ =>
      if a.isDigit && b.isDigit && d.isDigit && e.isDigit then some [a, b, d, e]
      else searchFourDigits rest
    | _ => searchFourDigits rest

/-- The cleanup step of `_normalize_socket`: remove all whitespace, then
lower-case. -/
def cleanSock (socket_str : String) : String :=
  lowerStr (removeWs socket_str)

/-- Socket-string normalization.  Mirrors `_normalize_socket`: falsy input
gives `None`; else strip whitespace and lower-case, return `am4`/`am5` on
those substrings, then `lga` plus digits, then a 4-digit run when `intel`
or `socket` occurs, else strip the literals `amd`, `intel`, `socket`. -/
def normalize_socket (socket_str : String) : Option String :=
  if socket_str = "" then none
  else
    let s := cleanSock socket_str
    if pyIn ("am4") s then some ("am4")
    else if pyIn ("am5") s then some ("am5")
    else if pyIn ("lga") s then
      match searchLga s.data with
      | some ds => some (String.mk ds)
      | none => some s
    else if pyIn ("intel") s || pyIn ("socket") s then
      match searchFourDigits s.data with
      | some ds => some (String.mk ds)
      | none => some s
    else some (pyRemove (pyRemove (pyRemove s ("amd")) ("intel")) ("socket"))

/-! ### Python `int(...)` on the values stored in part records -/

/-- A JSON field value fed to `int(...)`: either already a number or a
string to be parsed. -/
inductive PyVal where
  | num (n : Int)
  | str (s : String)
deriving DecidableEq

/-- Parse a decimal integer the way Python `int(str)` does: optional
surrounding whitespace, optional sign, at least one digit. -/
def parseIntChars (l : List Char) : Option Int :=
  match trimChars l with
  | '-' :: ds =>
    if !ds.isEmpty && ds.all Char.isDigit then
      some (-(ds.foldl (fun a c => a * 10 + (c.toNat - 48)) 0 : Nat))
    else none
  | '+' :: ds =>
    if !ds.isEmpty && ds.all Char.isDigit then
      some ((ds.foldl (fun a c => a * 10 + (c.toNat - 48)) 0 : Nat))
    else none
  | ds =>
    if !ds.isEmpty && ds.all Char.isDigit then
      some ((ds.foldl (fun a c => a * 10 + (c.toNat - 48)) 0 : Nat))
    else none

/-- Python `int(v)`: identity on numbers, decimal parse on strings;
`none` is the raised `ValueError`/`TypeError`. -/
def pyInt : PyVal → Option Int
  | PyVal.num n => some n
  | PyVal.str s => parseIntChars s.data

/-! ### Part records and constraint filtering (database.py) -/

/-- Projection of one catalogue dict onto the keys the engine reads.
`none` means the key is absent; `hasModules` records only whether the
`modules` key is present, which is all the code tests. -/
structure Part where
  name : String := ""
  chipset : Option String := none
  price : Option Int := none
  socket : Option String := none
  physSocket : Option String := none
  memSupport : Option String := none
  speed : Option (Int × Int) := none
  hasModules : Bool := false
  wattage : Option PyVal := none
  perfTdp : Option PyVal := none
  boardTdp : Option PyVal := none
deriving DecidableEq

/-- Python truthiness filter for an optional string: `None` and the empty
string are falsy. -/
def truthyS : Option String → Option String
  | none => none
  | some s => if s = "" then none else some s

/-- Python `a or b` over two optional string fields. -/
def pyOr (a b : Option String) : Option String :=
  match truthyS a with
  | some s => some s
  | none => truthyS b

/-- The constraint dict built by `_get_constraints`: each key is optional. -/
structure Constraints where
  socket : Option String := none
  memory_type : Option String := none
  estimated_power : Option Int := none
deriving DecidableEq

/-- The empty constraint dict (the default argument of `_pick_part`). -/
def noConstraints : Constraints := {}

/-- `PartDatabase.passes_constraints` (database.py lines 177-251). -/
def passes_constraints (part : Part) (constraints : Constraints) : Bool :=
  (match constraints.socket with
   | none => true
   | some cval =>
     match pyOr part.socket part.physSocket with
     | none => true
     | some raw => decide (normalize_socket raw = normalize_socket cval)) &&
  (match constraints.memory_type with
   | none => true
   | some cmem =>
     if part.speed.isSome && part.hasModules then
       let sp := part.speed.getD (0, 0)
       if sp.1 = 0 then false
       else pyStartswith cmem ("DDR" ++ toString sp.1)
     else if part.memSupport.isSome then
       let pm := part.memSupport.getD ""
       if pm = "" then false else pyIn cmem pm
     else true) &&
  (match constraints.estimated_power with
   | none => true
   | some est =>
     match part.wattage with
     | none => true
     | some wv =>
       match pyInt wv with
       | none => false
       | some w => !(decide (7 * w < 10 * est)))

/-- `self.data`: the category-name-to-record-list dict of `PartDatabase`. -/
def Database := List (String × List Part)

/-- Dict lookup on the database. -/
def dataGet (db : Database) (key : String) : Option (List Part) :=
  (db.find? (fun e => e.1 == key)).map (fun e => e.2)

/-- Keyword filter of `search_parts`: case-insensitive substring of the
name, and for `video-card` also of the chipset. -/
def keywordMatch (part_type kwLower : String) (p : Part) : Bool :=
  pyIn kwLower (lowerStr p.name) ||
    (part_type == "video-card" && pyIn kwLower (lowerStr (p.chipset.getD "")))

/-- `PartDatabase.search_parts` (database.py lines 253-286). -/
def search_parts (db : Database) (part_type keyword : String)
    (constraints : Constraints) : List Part :=
  match dataGet db part_type with
  | none => []
  | some parts =>
    parts.filter (fun p =>
      passes_constraints p constraints && keywordMatch part_type (lowerStr keyword) p)

/-! ### Exact fractions for money -/

/-- Exact fraction; every value the allocator builds has a positive
denominator.  Python float money arithmetic is modelled exactly. -/
structure Frac where
  num : Int
  den : Int
deriving DecidableEq

/-- Embed an integer amount. -/
def fOfInt (n : Int) : Frac := ⟨n, 1⟩

/-- The float `0.0` that seeds `budget_rollover`. -/
def fZero : Frac := ⟨0, 1⟩

/-- Fraction multiplication. -/
def fMul (a b : Frac) : Frac := ⟨a.num * b.num, a.den * b.den⟩

/-- Fraction addition. -/
def fAdd (a b : Frac) : Frac := ⟨a.num * b.den + b.num * a.den, a.den * b.den⟩

/-- Fraction subtraction. -/
def fSub (a b : Frac) : Frac := ⟨a.num * b.den - b.num * a.den, a.den * b.den⟩

/-- Division by two (`budgets["other"] / 2`). -/
def fHalf (a : Frac) : Frac := ⟨a.num, a.den * 2⟩

/-- The comparison `n <= b` between an integer price and a fractional
budget, valid for any nonzero denominator. -/
def fLeInt (n : Int) (b : Frac) : Bool :=
  decide ((n * b.den - b.num) * b.den ≤ 0)

/-! ### Part picking (`AutoBuilder._pick_part`, autobuilder.py lines 110-147) -/

/-- Sort key `x["price"]`; inside `_pick_part` the key is always present. -/
def priceKey (p : Part) : Int := p.price.getD 0

/-- Stable descending insertion: the element being inserted originates
earlier in the input list, so it goes in front of equal keys.  This is the
behaviour of Python `sorted(..., reverse=True)`. -/
def insertDesc (p : Part) : List Part → List Part
  | [] => [p]
  | q :: qs => if priceKey p < priceKey q then q :: insertDesc p qs else p :: q :: qs

/-- Stable sort by price, descending (`sorted(parts, key=price, reverse=True)`). -/
def sortDesc (l : List Part) : List Part := l.foldr insertDesc []

/-- The affordable survivors: constraint-passing records with a truthy
(nonzero) price at most the budget. -/
def survivors (db : Database) (json_key : String) (budget : Frac)
    (constraints : Constraints) : List Part :=
  (search_parts db json_key ("") constraints).filter (fun p =>
    match p.price with
    | some n => !(n == 0) && fLeInt n budget
    | none => false)

/-- The DDR5-capable records among a list of CPUs. -/
def ddr5Parts (l : List Part) : List Part :=
  l.filter (fun p => pyIn ("DDR5") (p.memSupport.getD ""))

/-- The list the final maximum is taken over: for CPUs, the DDR5-capable
survivors when there are any, otherwise all survivors. -/
def pickPool (db : Database) (json_key : String) (budget : Frac)
    (constraints : Constraints) : List Part :=
  if json_key == "cpu" then
    if (ddr5Parts (survivors db json_key budget constraints)).isEmpty then
      survivors db json_key budget constraints
    else ddr5Parts (survivors db json_key budget constraints)
  else survivors db json_key budget constraints

/-- `AutoBuilder._pick_part`: `None` when no affordable survivor exists,
else the head of the stable descending sort of the pool. -/
def pick_part (db : Database) (json_key : String) (budget : Frac)
    (constraints : Constraints) : Option Part :=
  if (survivors db json_key budget constraints).isEmpty then none
  else (sortDesc (pickPool db json_key budget constraints)).head?

/-! ### Builds and constraint derivation (`AutoBuilder._get_constraints`,
autobuilder.py lines 57-108) -/

/-- The six slots of a `PartList`. -/
structure Build where
  cpu : Option Part := none
  gpu : Option Part := none
  motherboard : Option Part := none
  ram : Option Part := none
  psu : Option Part := none
  pcCase : Option Part := none
deriving DecidableEq

/-- The empty `PartList`. -/
def emptyBuild : Build := {}

/-- `int(cpu.get("Performance - TDP", 0)) if cpu else 0`; `none` is the
raised exception. -/
def cpuPowerOf : Option Part → Option Int
  | none => some 0
  | some c => pyInt (c.perfTdp.getD (PyVal.num 0))

/-- `int(gpu.get("Board Design - TDP", 0)) if gpu else 0`. -/
def gpuPowerOf : Option Part → Option Int
  | none => some 0
  | some g => pyInt (g.boardTdp.getD (PyVal.num 0))

/-- Socket constraint of `_get_constraints`: CPU first, else motherboard. -/
def socket_constraint (build : Build) : Option String :=
  match build.cpu with
  | some c =>
    match truthyS c.physSocket with
    | some s => normalize_socket s
    | none => none
  | none =>
    match build.motherboard with
    | some m =>
      match truthyS m.socket with
      | some s => normalize_socket s
      | none => none
    | none => none

/-- The prefix of a string before the first comma (`s.split(",")[0]`). -/
def beforeComma (s : String) : String :=
  String.mk (s.data.takeWhile (fun c => !(c == ',')))

/-- Memory-type constraint of `_get_constraints`. -/
def memory_constraint (build : Build) : Option String :=
  match build.cpu with
  | some c =>
    match truthyS c.memSupport with
    | some ms =>
      if pyIn ("DDR5") ms then some ("DDR5")
      else if pyIn ("DDR4") ms then some ("DDR4")
      else some (pyStrip (beforeComma ms))
    | none => none
  | none => none

/-- Power constraint of `_get_constraints`: inside `try/except`, both TDP
fields must parse, and the key is set only when one parsed TDP is
positive. -/
def power_constraint (build : Build) : Option Int :=
  match cpuPowerOf build.cpu, gpuPowerOf build.gpu with
  | some cp, some gp =>
    if 0 < cp || 0 < gp then some (cp + gp + 100) else none
  | _, _ => none

/-- `AutoBuilder._get_constraints`. -/
def get_constraints (build : Build) : Constraints :=
  { socket := socket_constraint build
    memory_type := memory_constraint build
    estimated_power := power_constraint build }

/-! ### Compatibility checking (`CompatibilityChecker.check_build`,
checker.py lines 46-137).  The three numbered blocks of the function are
given as three definitions whose outputs are appended in program order.
Message strings are byte-for-byte those of the source (apostrophes
written as the escape `\x27`). -/

/-- Python `str(...)` of a possibly-`None` value, as an f-string renders it. -/
def pyShowOpt : Option String → String
  | none => "None"
  | some s => s

/-- Soft warning of the socket block. -/
def sockSoftMsg : String :=
  "⚠️ Could not check CPU<->Mobo socket (One or both parts are missing \x27socket\x27 data)."

/-- Hard warning of the socket block. -/
def sockBadMsg (a b : Option String) : String :=
  "❌ INCOMPATIBLE: CPU socket (" ++
    (pyShowOpt a ++ (") does not match motherboard socket (" ++ (pyShowOpt b ++ ")!")))

/-- Soft warning of the memory block. -/
def memSoftMsg : String :=
  "⚠️ Could not check RAM<->CPU type (CPU/Mobo DB missing \x27Architecture - Memory Support\x27)"

/-- Hard warning of the memory block. -/
def memBadMsg (ramType memSupport : String) : String :=
  "❌ INCOMPATIBLE: RAM type (" ++
    (ramType ++ (") does not match CPU/Mobo support (" ++ (memSupport ++ ")!")))

/-- Soft warning for a PSU with zero wattage. -/
def psuSoftMsg : String :=
  "⚠️ Could not check PSU (PSU DB missing \x27wattage\x27)"

/-- Hard warning of the risky branch; its last argument is the value the
code computes as `int(total_power / 0.7)`. -/
def riskyMsg (total psu minSafe : Int) : String :=
  "❌ RISKY: Estimated power draw (~" ++
    (toString total ++ ("W) is >70% of PSU capacity (" ++
      (toString psu ++ ("W)! Recommend at least " ++ (toString minSafe ++ "W.")))))

/-- Hard warning of the over-capacity branch. -/
def overMsg (total psu : Int) : String :=
  "❌ INCOMPATIBLE: Estimated power draw (" ++
    (toString total ++ ("W) exceeds PSU capacity (" ++ (toString psu ++ "W)!")))

/-- Warning of the `except` arm of the power block; the interpolated
exception text is abridged to a fixed marker. -/
def psuErrMsg : String :=
  "⚠️ Could not check PSU wattage: error"

/-- Block 1 of `check_build`: CPU and motherboard socket comparison. -/
def socket_check (build : Build) : List String :=
  match build.cpu, build.motherboard with
  | some c, some m =>
    match pyOr c.physSocket c.socket, pyOr m.socket m.physSocket with
    | some craw, some mraw =>
      if normalize_socket craw = normalize_socket mraw then []
      else [sockBadMsg (normalize_socket craw) (normalize_socket mraw)]
    | _, _ => [sockSoftMsg]
  | _, _ => []

/-- The RAM type string `"DDR" + speed[0]` derived from
`ram.get("speed", [0, 0])`. -/
def ramTypeOf (r : Part) : String :=
  "DDR" ++ toString (r.speed.getD (0, 0)).1

/-- The supported-memory string of the memory block: the CPU field first
(default `NOT_FOUND`), re-read from the motherboard when it still
contains `NOT_FOUND`. -/
def memSupportOf (build : Build) : String :=
  let ms1 :=
    match build.cpu with
    | some c => c.memSupport.getD ("NOT_FOUND")
    | none => "NOT_FOUND"
  if pyIn ("NOT_FOUND") ms1 then
    match build.motherboard with
    | some m => m.memSupport.getD ("NOT_FOUND")
    | none => ms1
  else ms1

/-- Block 2 of `check_build`: RAM type against CPU/motherboard support. -/
def memory_check (build : Build) : List String :=
  match build.ram with
  | none => []
  | some r =>
    if build.cpu.isSome || build.motherboard.isSome then
      if pyIn ("NOT_FOUND") (memSupportOf build) then [memSoftMsg]
      else if !(pyIn (ramTypeOf r) (memSupportOf build)) then
        [memBadMsg (ramTypeOf r) (memSupportOf build)]
      else []
    else []

/-- Block 3 of `check_build`: PSU wattage against estimated draw.  The
whole block is inside `try/except`; a failing `int(...)` yields the
`except` warning. -/
def power_check (build : Build) : List String :=
  match build.psu with
  | none => []
  | some p =>
    if build.cpu.isSome || build.gpu.isSome then
      match cpuPowerOf build.cpu, gpuPowerOf build.gpu,
          pyInt (p.wattage.getD (PyVal.num 0)) with
      | some cp, some gp, some w =>
        let total := cp + gp + 100
        if w = 0 then [psuSoftMsg]
        else if 7 * w < 10 * total then
          [riskyMsg total w (Int.tdiv (10 * total) 7)]
        else if w < total then [overMsg total w]
        else []
      | _, _, _ => [psuErrMsg]
    else []

/-- `CompatibilityChecker.check_build`. -/
def check_build (build : Build) : List String :=
  socket_check build ++ memory_check build ++ power_check build

/-! ### The budget allocator (`AutoBuilder.run_auto_build`,
autobuilder.py lines 149-243) -/

/-- One purpose profile of budget split weights. -/
structure Splits where
  cpu : Frac
  gpu : Frac
  motherboard : Frac
  ram : Frac
  other : Frac

/-- `GAMING_SPLITS` (float weights 0.20/0.40/0.15/0.15/0.10). -/
def gaming_splits : Splits :=
  ⟨⟨20, 100⟩, ⟨40, 100⟩, ⟨15, 100⟩, ⟨15, 100⟩, ⟨10, 100⟩⟩

/-- `WORKSTATION_SPLITS` (float weights 0.35/0.20/0.15/0.20/0.10). -/
def workstation_splits : Splits :=
  ⟨⟨35, 100⟩, ⟨20, 100⟩, ⟨15, 100⟩, ⟨20, 100⟩, ⟨10, 100⟩⟩

/-- `part.get("price", default)` as a fraction; inside the allocator the
default is the sub-budget itself, making the saving zero. -/
def priceOrDefault (p : Part) (default : Frac) : Frac :=
  match p.price with
  | some n => fOfInt n
  | none => default

/-- Failure message of the motherboard step, naming the chosen CPU and
the socket constraint. -/
def moboFailMsg (cpuName : String) (socket : Option String) : String :=
  "Failed to find a compatible Mobo for " ++
    (cpuName ++ (" (Socket: " ++ (pyShowOpt socket ++ ").")))

/-- Failure message of the RAM step, naming the memory-type constraint. -/
def ramFailMsg (memType : Option String) : String :=
  "Failed to find compatible RAM (Type: " ++ (pyShowOpt memType ++ ").")

/-- The split profile chosen from the purpose string
(`GAMING_SPLITS if purpose == "gaming" else WORKSTATION_SPLITS`). -/
def splitsFor (purpose : String) : Splits :=
  if purpose == "gaming" then gaming_splits else workstation_splits

/-- The final GPU budget of `run_auto_build` when the CPU, motherboard
and RAM picks returned `c`, `m` and `r`: the GPU split plus the rollover
accumulated over those three picks. -/
def gpu_budget_final (total_budget : Frac) (purpose : String) (c m r : Part) : Frac :=
  fAdd (fMul total_budget (splitsFor purpose).gpu)
    (fAdd
      (fAdd
        (fAdd fZero
          (fSub (fMul total_budget (splitsFor purpose).cpu)
            (priceOrDefault c (fMul total_budget (splitsFor purpose).cpu))))
        (fSub (fMul total_budget (splitsFor purpose).motherboard)
          (priceOrDefault m (fMul total_budget (splitsFor purpose).motherboard))))
      (fSub (fMul total_budget (splitsFor purpose).ram)
        (priceOrDefault r (fMul total_budget (splitsFor purpose).ram))))

/-- `AutoBuilder.run_auto_build`: split the budget, pick CPU,
motherboard, RAM while accumulating rollover, give the GPU its split plus
the rollover, then PSU and case, and finish with a checker pass.  The
successive `add_part` calls on the growing build are written as the
explicit build each one produces. -/
def run_auto_build (db : Database) (total_budget : Frac) (purpose : String) :
    Option Build × List String :=
  match pick_part db ("cpu") (fMul total_budget (splitsFor purpose).cpu) noConstraints with
  | none => (none, ["Failed to find a CPU within budget."])
  | some cpu =>
    match pick_part db ("motherboard") (fMul total_budget (splitsFor purpose).motherboard)
        (get_constraints { cpu := some cpu }) with
    | none => (none, [moboFailMsg cpu.name (get_constraints { cpu := some cpu }).socket])
    | some mobo =>
      match pick_part db ("memory") (fMul total_budget (splitsFor purpose).ram)
          (get_constraints { cpu := some cpu, motherboard := some mobo }) with
      | none =>
        (none, [ramFailMsg (get_constraints { cpu := some cpu, motherboard := some mobo }).memory_type])
      | some ram =>
        match pick_part db ("video-card") (gpu_budget_final total_budget purpose cpu mobo ram)
            noConstraints with
        | none => (none, ["Failed to find a GPU within budget."])
        | some gpu =>
          match pick_part db ("power-supply") (fHalf (fMul total_budget (splitsFor purpose).other))
              (get_constraints { cpu := some cpu, motherboard := some mobo, ram := some ram, gpu := some gpu }) with
          | none => (none, ["Failed to find a suitable PSU."])
          | some psu =>
            match pick_part db ("case") (fHalf (fMul total_budget (splitsFor purpose).other))
                noConstraints with
            | some k =>
              (some { cpu := some cpu, motherboard := some mobo, ram := some ram,
                      gpu := some gpu, psu := some psu, pcCase := some k },
                check_build { cpu := some cpu, motherboard := some mobo, ram := some ram,
                              gpu := some gpu, psu := some psu, pcCase := some k })
            | none =>
              (some { cpu := some cpu, motherboard := some mobo, ram := some ram,
                      gpu := some gpu, psu := some psu },
                check_build { cpu := some cpu, motherboard := some mobo, ram := some ram,
                              gpu := some gpu, psu := some psu })

/-! ### Master-spec matching and enrichment (database.py lines 39-150).
Here a record is an open dictionary: an association list with
first-occurrence lookup, in-place update and append-on-new-key, the
observable behaviour of a Python dict.  Field values are the strings the
matching logic reads; copied values are opaque. -/

/-- An open record. -/
abbrev Record := List (String × String)

/-- `record.get(key)`: value at the first occurrence of the key. -/
def dictGet (key : String) (r : Record) : Option String :=
  ((r : List (String × String)).find? (fun e => e.1 == key)).map (fun e => e.2)

/-- `record.get(key, default)`. -/
def dictGetD (key : String) (r : Record) (default : String) : String :=
  (dictGet key r).getD default

/-- `record[key] = v`: replace the value at the first occurrence of the
key, keeping its position, or append a new pair. -/
def dictSet (key v : String) : Record → Record
  | [] => [(key, v)]
  | e :: rest => if e.1 = key then (e.1, v) :: rest else e :: dictSet key v rest

/-- The characters of the regex class `\w` (ASCII fragment). -/
def isWordChar (c : Char) : Bool :=
  c.isAlphanum || c == '_'

/-- Worker for `re.findall(r"\b\w+\b", s)`: the maximal runs of word
characters, with the run built in reverse in the accumulator. -/
def tokensAux : List Char → List Char → List String
  | [], cur => if cur.isEmpty then [] else [String.mk cur.reverse]
  | c :: rest, cur =>
    if isWordChar c then tokensAux rest (c :: cur)
    else if cur.isEmpty then tokensAux rest []
    else String.mk cur.reverse :: tokensAux rest []

/-- The word tokens of a string. -/
def tokensOf (s : String) : List String :=
  tokensAux s.data []

/-- The noise words removed by `normalize_search_term`. -/
def junkWords : Finset String :=
  {"amd", "intel", "geforce", "radeon", "gb", "tb", "mhz", "ddr4", "ddr5", "nvidia"}

/-- `PartDatabase.normalize_search_term`: lower-cased word tokens as a
set, minus the noise words. -/
def normalize_search_term (term : String) : Finset String :=
  (tokensOf (lowerStr term)).toFinset \ junkWords

/-- The primary matching rule of `find_master_spec`:
`master_key_set.issubset(search_words)`. -/
def subset_rule (masterKey searchWords : Finset String) : Prop :=
  masterKey ⊆ searchWords

/-- The fallback matching rule of `find_master_spec`:
`all(word in search_words for word in master_key_set)`. -/
def fallback_rule (masterKey searchWords : Finset String) : Prop :=
  ∀ w ∈ masterKey, w ∈ searchWords

instance (k s : Finset String) : Decidable (subset_rule k s) :=
  inferInstanceAs (Decidable (k ⊆ s))

instance (k s : Finset String) : Decidable (fallback_rule k s) :=
  inferInstanceAs (Decidable (∀ w ∈ k, w ∈ s))

/-- One master-spec lookup map: insertion-ordered pairs of normalized
keyword set and master record. -/
def MasterMap := List (Finset String × Record)

/-- Dict insertion for the master map (overwrite at the first equal key,
else append), used by `build_master_spec_maps`. -/
def msInsert (key : Finset String) (v : Record) : MasterMap → MasterMap
  | [] => [(key, v)]
  | e :: rest => if e.1 = key then (e.1, v) :: rest else e :: msInsert key v rest

/-- `PartDatabase.build_master_spec_maps` for one master database: key
each master part by the normalized keyword set of its `Name` field. -/
def build_master_spec_maps (masters : List Record) : MasterMap :=
  masters.foldl (fun m part => msInsert (normalize_search_term (dictGetD ("Name") part "")) part m) []

/-- `PartDatabase.find_master_spec` (database.py lines 77-112): search
term is the chipset if truthy else the name; empty keyword set matches
nothing; try the subset rule over the map in order, then the fallback
rule.  A `None` search term would raise in Python; the callers guard
against it and it is modelled as no match. -/
def find_master_spec (maps : MasterMap) (product_name product_chipset : Option String) :
    Option Record :=
  let search_term :=
    match truthyS product_chipset with
    | some c => some c
    | none => product_name
  match search_term with
  | none => none
  | some t =>
    let search_words := normalize_search_term t
    if search_words = ∅ then none
    else
      match maps.find? (fun e => decide (subset_rule e.1 search_words)) with
      | some e => some e.2
      | none =>
        match maps.find? (fun e => decide (fallback_rule e.1 search_words)) with
        | some e => some e.2
        | none => none

/-- The spec-copying loop of the enrichment pass: for each listed key
present in the master record, write its value into the product. -/
def copy_specs (specs_to_copy : List String) (master product : Record) : Record :=
  specs_to_copy.foldl (fun p k =>
    match dictGet k master with
    | some v => dictSet k v p
    | none => p) product

/-- The guard of the enrichment loop: the match-field value when truthy,
else for the `video-card` category the truthy chipset; `none` means the
record is skipped (`continue`). -/
def enrich_search_term (product_key match_field : String) (product : Record) :
    Option String :=
  match truthyS (dictGet match_field product) with
  | some s => some s
  | none =>
    if product_key == "video-card" then truthyS (dictGet ("chipset") product)
    else none

/-- Enrichment of a single product record (the loop body of
`enrich_product_database`, database.py lines 132-148). -/
def enrich_one (maps : MasterMap) (product_key match_field : String)
    (specs_to_copy : List String) (product : Record) : Record :=
  match enrich_search_term product_key match_field product with
  | none => product
  | some _ =>
    match find_master_spec maps (dictGet ("name") product) (dictGet ("chipset") product) with
    | none => product
    | some master => copy_specs specs_to_copy master product

/-- `PartDatabase.enrich_product_database`, acting on the product list. -/
def enrich_product_database (products : List Record) (maps : MasterMap)
    (product_key match_field : String) (specs_to_copy : List String) : List Record :=
  products.map (enrich_one maps product_key match_field specs_to_copy)

/-! ### Concrete fixtures used by witnesses and counterexamples -/

/-- A complete, compatible AM4/DDR4 test CPU. -/
def cpu0 : Part :=
  { name := "TestCPU", price := some 100, physSocket := some ("AM4"),
    memSupport := some ("DDR4"), perfTdp := some (PyVal.num 65) }

/-- A matching AM4 test motherboard. -/
def mobo0 : Part := { name := "TestMobo", price := some 100, socket := some ("AM4") }

/-- A DDR4 test RAM kit. -/
def ram0 : Part :=
  { name := "TestRAM", price := some 100, speed := some (4, 3200), hasModules := true }

/-- A test GPU with a 100 W TDP. -/
def gpu0 : Part := { name := "TestGPU", price := some 100, boardTdp := some (PyVal.num 100) }

/-- A cheap 700 W test PSU. -/
def psu0 : Part := { name := "TestPSU", price := some 40, wattage := some (PyVal.num 700) }

/-- A catalogue on which the allocator succeeds end to end. -/
def db0 : Database :=
  [("cpu", [cpu0]), ("motherboard", [mobo0]), ("memory", [ram0]),
   ("video-card", [gpu0]), ("power-supply", [psu0]), ("case", [])]

/-- The build the allocator assembles from `db0`. -/
def build0 : Build :=
  { cpu := some cpu0, gpu := some gpu0, motherboard := some mobo0,
    ram := some ram0, psu := some psu0 }

/-- The same catalogue with an empty motherboard category. -/
def dbNoMobo : Database :=
  [("cpu", [cpu0]), ("motherboard", []), ("memory", [ram0]),
   ("video-card", [gpu0]), ("power-supply", [psu0]), ("case", [])]

/-- A CPU drawing 300 W. -/
def cpuT300 : Part := { name := "HotCPU", perfTdp := some (PyVal.num 300) }

/-- A 500 W PSU. -/
def psu500 : Part := { name := "PSU500", wattage := some (PyVal.num 500) }

/-- Build of the power-rule test case: total draw 400 W against a 500 W
PSU. -/
def cbuild1 : Build := { cpu := some cpuT300, psu := some psu500 }

/-- Build with an unparseable CPU TDP string and a 200 W GPU. -/
def cbuild2 : Build :=
  { cpu := some { name := "BadTdpCPU", perfTdp := some (PyVal.str "65 W") },
    gpu := some { name := "GPU200", boardTdp := some (PyVal.num 200) } }

/-- A CPU whose memory-support field mentions neither DDR4 nor DDR5. -/
def cpuDdr3 : Part := { name := "OldCPU", price := some 100, memSupport := some ("DDR3") }

/-- A catalogue whose only CPU is DDR3-only. -/
def db3 : Database := [("cpu", [cpuDdr3])]

/-- A record exposing an empty memory-support field. -/
def partEmptyMem : Part := { name := "EmptyMem", memSupport := some ("") }

/-- A CPU drawing minus 108 W after the fixed 100 W overhead, i.e. total
draw is minus 8 W. -/
def cpuTneg : Part := { name := "NegCPU", perfTdp := some (PyVal.num (-108)) }

/-- A PSU whose wattage field parses to minus 10. -/
def psuNeg : Part := { name := "NegPSU", wattage := some (PyVal.num (-10)) }

/-- Build with negative total draw and negative PSU wattage. -/
def cbuildNeg : Build := { cpu := some cpuTneg, psu := some psuNeg }

/-- Build with a 100 W CPU and a healthy 700 W PSU. -/
def cbuildOk : Build :=
  { cpu := some { name := "Cpu100", perfTdp := some (PyVal.num 100) }, psu := some psu0 }

/-- Master record whose `Name` keys it as `alpha` but whose `name` value
is `beta`. -/
def masterA : Record := [("Name", "alpha"), ("name", "beta")]

/-- Master record keyed `beta` with `name` value `gamma`. -/
def masterB : Record := [("Name", "beta"), ("name", "gamma")]

/-- Master map built from the two master records. -/
def mmaps9 : MasterMap := build_master_spec_maps [masterA, masterB]

/-- A one-record product catalogue named `alpha`. -/
def prods9 : List Record := [[("name", "alpha")]]

/-- A product catalogue and spec list for which enrichment copies an
ordinary spec key. -/
def prods9b : List Record := [[("name", "alpha"), ("Physical - Socket", "AM4")]]

/-- Master records carrying a socket spec. -/
def mmaps9b : MasterMap :=
  build_master_spec_maps [[("Name", "alpha"), ("Physical - Socket", "AM5")]]

/-! ## Claim theorems -/

/-- C1 (counterexample): on a build with PSU wattage 500 and total draw
400, the risky warning emitted by `check_build` names 571 W, obtained by
truncating 400 / 0.7, and not the 572 W the claim states as
`ceil(400 / 0.7)`. -/
theorem C1_counterexample :
    check_build cbuild1 = [riskyMsg 400 500 571] ∧
      riskyMsg 400 500 571 ≠ riskyMsg 400 500 572 := by
  exact ⟨by decide, by decide⟩

/-- C1 (amended): whenever the power rule takes its risky branch
(`wattage * 0.7 < total`, with parsed TDPs `cp`, `gp`, parsed nonzero
wattage `w` and total draw `cp + gp + 100`), the emitted warning names
the minimum wattage `int(total / 0.7)`, the exact truncated division of
`10 * total` by 7 - not the ceiling. -/
theorem C1_theorem (b : Build) (p : Part) (cp gp w : Int)
    (hpsu : b.psu = some p)
    (hsel : (b.cpu.isSome || b.gpu.isSome) = true)
    (hcp : cpuPowerOf b.cpu = some cp)
    (hgp : gpuPowerOf b.gpu = some gp)
    (hw : pyInt (p.wattage.getD (PyVal.num 0)) = some w)
    (hw0 : w ≠ 0)
    (hrisky : 7 * w < 10 * (cp + gp + 100)) :
    riskyMsg (cp + gp + 100) w (Int.tdiv (10 * (cp + gp + 100)) 7) ∈ check_build b := by
  unfold check_build
  refine List.mem_append.mpr (Or.inr ?_)
  simp only [power_check, hpsu, hsel, hcp, hgp, hw, if_true]
  rw [if_neg hw0, if_pos hrisky]
  exact List.mem_singleton.mpr rfl

/-- C1 (witness): the amended theorem applied to the 400 W / 500 W
build. -/
theorem C1_witness :
    (7 * 500 < 10 * (300 + 0 + 100)) ∧
      riskyMsg (300 + 0 + 100) 500 (Int.tdiv (10 * (300 + 0 + 100)) 7) ∈
        check_build cbuild1 := by
  exact ⟨by decide,
    C1_theorem cbuild1 psu500 300 0 500 rfl rfl rfl rfl rfl (by decide) (by decide)⟩

/-- C2 (counterexample): with an unparseable CPU TDP string and a GPU TDP
of 200, `_get_constraints` does not set `estimated_power` at all - the
claim expects the unparseable value to contribute 0 and yield 300. -/
theorem C2_counterexample :
    (get_constraints cbuild2).estimated_power = none ∧
      (get_constraints cbuild2).estimated_power ≠ some 300 := by
  exact ⟨by decide, by decide⟩

/-- C2 (amended): the derived constraint set contains `estimated_power`
exactly when both TDP reads parse (a missing field defaults to 0, an
absent part contributes 0) and one parsed TDP is positive, with value
`cpu_tdp + gpu_tdp + 100`; when either read raises, the silent `except`
arm suppresses the key entirely. -/
theorem C2_theorem :
    (∀ (b : Build) (cp gp : Int), cpuPowerOf b.cpu = some cp →
      gpuPowerOf b.gpu = some gp →
      (get_constraints b).estimated_power =
        if 0 < cp || 0 < gp then some (cp + gp + 100) else none) ∧
    (∀ b : Build, cpuPowerOf b.cpu = none ∨ gpuPowerOf b.gpu = none →
      (get_constraints b).estimated_power = none) := by
  constructor
  · intro b cp gp hcp hgp
    simp [get_constraints, power_constraint, hcp, hgp]
  · intro b h
    rcases h with h | h
    · cases hg : gpuPowerOf b.gpu <;> simp [get_constraints, power_constraint, h, hg]
    · cases hc : cpuPowerOf b.cpu <;> simp [get_constraints, power_constraint, h, hc]

/-- C2 (witness): the amended theorem applied to a build with parsed TDPs
65 and 100, and to the build with the unparseable CPU TDP. -/
theorem C2_witness :
    ((get_constraints build0).estimated_power =
      if (0 : Int) < 65 || (0 : Int) < 100 then some (65 + 100 + 100) else none) ∧
      (get_constraints cbuild2).estimated_power = none := by
  exact ⟨C2_theorem.1 build0 65 100 (by decide) (by decide),
    C2_theorem.2 cbuild2 (Or.inl (by decide))⟩

/-- C8 (counterexample): there is no pair of keyword sets accepted by the
fallback rule of `find_master_spec` but rejected by its primary subset
rule - the two rules cannot disagree. -/
theorem C8_counterexample :
    ¬ ∃ masterKey searchWords : Finset String,
      fallback_rule masterKey searchWords ∧ ¬ subset_rule masterKey searchWords := by
  rintro ⟨k, s, hf, hns⟩
  exact hns (fun x hx => hf x hx)

/-- C8 (amended): the fallback matching rule (every keyword of the
reference set individually appears among the record keywords) is
equivalent to the primary subset rule on keyword sets, so the fallback
loop can never match anything the primary loop missed. -/
theorem C8_theorem :
    ∀ masterKey searchWords : Finset String,
      fallback_rule masterKey searchWords ↔ subset_rule masterKey searchWords := by
  intro k s
  constructor
  · intro h x hx
    exact h x hx
  · intro h w hw
    exact h hw

/-- C8 (witness): the equivalence instantiated at concrete keyword sets. -/
theorem C8_witness :
    fallback_rule {"ryzen", "5600x"} {"ryzen", "5600x", "tray"} ↔
      subset_rule {"ryzen", "5600x"} {"ryzen", "5600x", "tray"} :=
  C8_theorem {"ryzen", "5600x"} {"ryzen", "5600x", "tray"}

/-! ### Helper lemmas about warning strings -/

/-- Reading inside the left part of a string concatenation. -/
theorem data_get_append (a b : String) (i : Nat) (h : i < a.data.length) :
    (a ++ b).data[i]? = a.data[i]? := by
  rw [String.data_append]
  exact List.getElem?_append_left h

/-- Two strings differing at one character index are different. -/
theorem string_ne_of_get_ne (s t : String) (i : Nat)
    (h : s.data[i]? ≠ t.data[i]?) : s ≠ t := by
  intro he
  exact h (by rw [he])

/-- The over-capacity warning starts with the cross mark. -/
theorem overMsg_get_zero (t w : Int) : (overMsg t w).data[0]? = some ('❌') := by
  unfold overMsg
  rw [data_get_append _ _ 0 (by decide)]
  decide

/-- Character 2 of the over-capacity warning. -/
theorem overMsg_get_two (t w : Int) : (overMsg t w).data[2]? = some ('I') := by
  unfold overMsg
  rw [data_get_append _ _ 2 (by decide)]
  decide

/-- Character 16 of the over-capacity warning. -/
theorem overMsg_get_sixteen (t w : Int) : (overMsg t w).data[16]? = some ('E') := by
  unfold overMsg
  rw [data_get_append _ _ 16 (by decide)]
  decide

/-- The soft socket warning is never the over-capacity warning. -/
theorem sockSoft_ne_over (t w : Int) : sockSoftMsg ≠ overMsg t w := by
  apply string_ne_of_get_ne _ _ 0
  rw [overMsg_get_zero]
  decide

/-- The hard socket warning is never the over-capacity warning. -/
theorem sockBad_ne_over (a b : Option String) (t w : Int) :
    sockBadMsg a b ≠ overMsg t w := by
  apply string_ne_of_get_ne _ _ 16
  rw [overMsg_get_sixteen]
  unfold sockBadMsg
  rw [data_get_append _ _ 16 (by decide)]
  decide

/-- The soft memory warning is never the over-capacity warning. -/
theorem memSoft_ne_over (t w : Int) : memSoftMsg ≠ overMsg t w := by
  apply string_ne_of_get_ne _ _ 0
  rw [overMsg_get_zero]
  decide

/-- The hard memory warning is never the over-capacity warning. -/
theorem memBad_ne_over (rt ms : String) (t w : Int) :
    memBadMsg rt ms ≠ overMsg t w := by
  apply string_ne_of_get_ne _ _ 16
  rw [overMsg_get_sixteen]
  unfold memBadMsg
  rw [data_get_append _ _ 16 (by decide)]
  decide

/-- The socket block never emits the over-capacity warning. -/
theorem over_not_in_socket_check (b : Build) (t w : Int) :
    overMsg t w ∉ socket_check b := by
  intro h
  unfold socket_check at h
  split at h
  case _ c m =>
    split at h
    case _ craw mraw =>
      split at h
      · exact List.not_mem_nil _ h
      · rw [List.mem_singleton] at h
        exact sockBad_ne_over _ _ t w h.symm
    case _ =>
      rw [List.mem_singleton] at h
      exact sockSoft_ne_over t w h.symm
  case _ =>
    exact List.not_mem_nil _ h

/-- The memory block never emits the over-capacity warning. -/
theorem over_not_in_memory_check (b : Build) (t w : Int) :
    overMsg t w ∉ memory_check b := by
  intro h
  unfold memory_check at h
  split at h
  · exact List.not_mem_nil _ h
  · split at h
    · split at h
      · rw [List.mem_singleton] at h
        exact memSoft_ne_over t w h.symm
      · split at h
        · rw [List.mem_singleton] at h
          exact memBad_ne_over _ _ t w h.symm
        · exact List.not_mem_nil _ h
    · exact List.not_mem_nil _ h

/-- The memory-type block of `passes_constraints` for a RAM-shaped
record. -/
theorem passes_mem_ram (p : Part) (cmem : String)
    (hram : (p.speed.isSome && p.hasModules) = true) :
    passes_constraints p { memory_type := some cmem } =
      (if (p.speed.getD (0, 0)).1 = 0 then false
       else pyStartswith cmem ("DDR" ++ toString (p.speed.getD (0, 0)).1)) := by
  simp [passes_constraints, hram]

/-- The memory-type block of `passes_constraints` for a record with a
memory-support field. -/
theorem passes_mem_support (p : Part) (cmem pm : String)
    (hram : (p.speed.isSome && p.hasModules) = false)
    (hpm : p.memSupport = some pm) :
    passes_constraints p { memory_type := some cmem } =
      (if pm = "" then false else pyIn cmem pm) := by
  simp [passes_constraints, hram, hpm]

/-! ### C5, C6, C10 -/

/-- C5 (counterexample): a record exposing an empty memory-support field
is excluded under the empty memory-type constraint even though the
constraint string is a substring of the field, contradicting the exactly-
when clause of the claim. -/
theorem C5_counterexample :
    passes_constraints partEmptyMem { memory_type := some ("") } = false ∧
      pyIn ("") ("") = true := by
  exact ⟨by decide, by decide⟩

/-- C5 (amended): under a memory-type constraint, a RAM-shaped record is
excluded exactly when its generation is zero or the derived type is not a
prefix of the constraint; a non-RAM-shaped record with a memory-support
field is excluded exactly when that field is empty or the constraint is
not a substring of it; records of neither shape always pass. -/
theorem C5_theorem (p : Part) (cmem : String) :
    ((p.speed.isSome && p.hasModules) = true →
      (passes_constraints p { memory_type := some cmem } = false ↔
        ((p.speed.getD (0, 0)).1 = 0 ∨
          pyStartswith cmem ("DDR" ++ toString (p.speed.getD (0, 0)).1) = false))) ∧
    ((p.speed.isSome && p.hasModules) = false → ∀ pm, p.memSupport = some pm →
      (passes_constraints p { memory_type := some cmem } = false ↔
        (pm = "" ∨ pyIn cmem pm = false))) ∧
    ((p.speed.isSome && p.hasModules) = false → p.memSupport = none →
      passes_constraints p { memory_type := some cmem } = true) := by
  refine ⟨?_, ?_, ?_⟩
  · intro hram
    rw [passes_mem_ram p cmem hram]
    split
    next h0 => exact iff_of_true rfl (Or.inl h0)
    next h0 => exact ⟨fun hy => Or.inr hy, fun hor => hor.resolve_left h0⟩
  · intro hram pm hpm
    rw [passes_mem_support p cmem pm hram hpm]
    split
    next h0 => exact iff_of_true rfl (Or.inl h0)
    next h0 => exact ⟨fun hy => Or.inr hy, fun hor => hor.resolve_left h0⟩
  · intro hram hmem
    simp [passes_constraints, hram, hmem]

/-- C5 (witness): the amended theorem applied to the DDR4 RAM record with
a DDR4 constraint, and to the no-shape PSU record. -/
theorem C5_witness :
    ((ram0.speed.isSome && ram0.hasModules) = true ∧
      (passes_constraints ram0 { memory_type := some ("DDR4") } = false ↔
        ((ram0.speed.getD (0, 0)).1 = 0 ∨
          pyStartswith ("DDR4") ("DDR" ++ toString (ram0.speed.getD (0, 0)).1) = false))) ∧
      passes_constraints psu0 { memory_type := some ("DDR4") } = true := by
  exact ⟨⟨by decide, (C5_theorem ram0 ("DDR4")).1 (by decide)⟩,
    (C5_theorem psu0 ("DDR4")).2.2 (by decide) (by decide)⟩

/-- C6 (confirmed): socket normalization strips whitespace and
lower-cases, then in strict order returns `am4`/`am5` on those substrings
(before any lga, intel or socket handling), the digit group of an
`lga<digits>` match, the first 4-digit run when `intel` or `socket`
occurs, and otherwise the cleaned string with the literals `amd`,
`intel`, `socket` stripped; in particular the three documented examples
hold. -/
theorem C6_theorem :
    (∀ s : String, s ≠ "" → pyIn ("am4") (cleanSock s) = true →
      normalize_socket s = some ("am4")) ∧
    (∀ s : String, s ≠ "" → pyIn ("am4") (cleanSock s) = false →
      pyIn ("am5") (cleanSock s) = true → normalize_socket s = some ("am5")) ∧
    (∀ (s : String) (ds : List Char), s ≠ "" → pyIn ("am4") (cleanSock s) = false →
      pyIn ("am5") (cleanSock s) = false → pyIn ("lga") (cleanSock s) = true →
      searchLga (cleanSock s).data = some ds →
      normalize_socket s = some (String.mk ds)) ∧
    (∀ (s : String) (ds : List Char), s ≠ "" → pyIn ("am4") (cleanSock s) = false →
      pyIn ("am5") (cleanSock s) = false → pyIn ("lga") (cleanSock s) = false →
      (pyIn ("intel") (cleanSock s) || pyIn ("socket") (cleanSock s)) = true →
      searchFourDigits (cleanSock s).data = some ds →
      normalize_socket s = some (String.mk ds)) ∧
    (∀ s : String, s ≠ "" → pyIn ("am4") (cleanSock s) = false →
      pyIn ("am5") (cleanSock s) = false → pyIn ("lga") (cleanSock s) = false →
      pyIn ("intel") (cleanSock s) = false → pyIn ("socket") (cleanSock s) = false →
      normalize_socket s =
        some (pyRemove (pyRemove (pyRemove (cleanSock s) ("amd")) ("intel")) ("socket"))) ∧
    (normalize_socket ("LGA1700") = some ("1700") ∧
      normalize_socket ("Socket AM4") = some ("am4") ∧
      normalize_socket ("AM5") = some ("am5")) := by
  refine ⟨?_, ?_, ?_, ?_, ?_, by decide, by decide, by decide⟩
  · intro s hs h4
    simp [normalize_socket, hs, h4]
  · intro s hs h4 h5
    simp [normalize_socket, hs, h4, h5]
  · intro s ds hs h4 h5 hl hsl
    simp [normalize_socket, hs, h4, h5, hl, hsl]
  · intro s ds hs h4 h5 hl hi hsf
    simp [normalize_socket, hs, h4, h5, hl, hi, hsf]
  · intro s hs h4 h5 hl hi hsk
    simp [normalize_socket, hs, h4, h5, hl, hi, hsk]

/-- C6 (witness): the five rules applied at concrete sockets. -/
theorem C6_witness :
    normalize_socket ("Socket AM4") = some ("am4") ∧
      normalize_socket ("AM5") = some ("am5") ∧
      normalize_socket ("LGA1700") = some (String.mk ['1', '7', '0', '0']) ∧
      normalize_socket ("Socket 1700") = some (String.mk ['1', '7', '0', '0']) ∧
      normalize_socket ("amdfx") =
        some (pyRemove (pyRemove (pyRemove (cleanSock ("amdfx")) ("amd")) ("intel")) ("socket")) := by
  exact ⟨C6_theorem.1 ("Socket AM4") (by decide) (by decide),
    C6_theorem.2.1 ("AM5") (by decide) (by decide) (by decide),
    C6_theorem.2.2.1 ("LGA1700") ['1', '7', '0', '0'] (by decide) (by decide) (by decide)
      (by decide) (by decide),
    C6_theorem.2.2.2.1 ("Socket 1700") ['1', '7', '0', '0'] (by decide) (by decide)
      (by decide) (by decide) (by decide) (by decide),
    C6_theorem.2.2.2.2.1 ("amdfx") (by decide) (by decide) (by decide) (by decide)
      (by decide) (by decide)⟩

/-- C10 (counterexample): with a parsed PSU wattage of minus 10 and a
total draw of minus 8, `check_build` does emit the over-capacity warning,
so the branch is reachable. -/
theorem C10_counterexample :
    check_build cbuildNeg = [overMsg (-8) (-10)] := by
  decide

/-- C10 (amended): for a positive parsed PSU wattage, not taking the
risky branch forces the total draw to be at most the wattage, so the
over-capacity warning for that draw and wattage is never emitted; the
branch is reachable only for negative parsed wattage data. -/
theorem C10_theorem (b : Build) (p : Part) (cp gp w : Int)
    (hpsu : b.psu = some p)
    (hcp : cpuPowerOf b.cpu = some cp)
    (hgp : gpuPowerOf b.gpu = some gp)
    (hw : pyInt (p.wattage.getD (PyVal.num 0)) = some w)
    (hpos : 0 < w)
    (hnotrisky : ¬ 7 * w < 10 * (cp + gp + 100)) :
    cp + gp + 100 ≤ w ∧ overMsg (cp + gp + 100) w ∉ check_build b := by
  have hle : cp + gp + 100 ≤ w := by omega
  refine ⟨hle, ?_⟩
  intro h
  unfold check_build at h
  rw [List.mem_append, List.mem_append] at h
  rcases h with (h | h) | h
  · exact over_not_in_socket_check b _ _ h
  · exact over_not_in_memory_check b _ _ h
  · have hempty : power_check b = [] := by
      simp only [power_check, hpsu, hcp, hgp, hw]
      cases hsel : (b.cpu.isSome || b.gpu.isSome)
      · simp
      · simp only [if_true]
        rw [if_neg (by omega), if_neg hnotrisky, if_neg (by omega)]
    rw [hempty] at h
    exact List.not_mem_nil _ h

/-- C10 (witness): the amended theorem applied to the 200 W draw, 700 W
PSU build. -/
theorem C10_witness :
    100 + 0 + 100 ≤ (700 : Int) ∧
      overMsg (100 + 0 + 100) 700 ∉ check_build cbuildOk :=
  C10_theorem cbuildOk psu0 100 0 700 rfl rfl rfl rfl (by decide) (by decide)

/-! ### Helper lemmas about the stable descending sort -/

/-- Inserting grows the length by one. -/
theorem length_insertDesc (p : Part) (l : List Part) :
    (insertDesc p l).length = l.length + 1 := by
  induction l with
  | nil => rfl
  | cons q qs ih =>
    unfold insertDesc
    split
    · simp [ih]
    · simp

/-- Sorting preserves the length. -/
theorem length_sortDesc (l : List Part) : (sortDesc l).length = l.length := by
  induction l with
  | nil => rfl
  | cons x xs ih =>
    have hx : sortDesc (x :: xs) = insertDesc x (sortDesc xs) := rfl
    rw [hx, length_insertDesc, ih, List.length_cons]

/-- A sorted nonempty list is nonempty. -/
theorem sortDesc_ne_nil (l : List Part) (h : l ≠ []) : sortDesc l ≠ [] := by
  intro he
  apply h
  have := length_sortDesc l
  rw [he] at this
  exact List.length_eq_zero.mp this.symm

/-- The head of the stable descending sort is the earliest element of
maximal price: it occurs at some index, no element has a larger price,
and everything strictly before that index has a strictly smaller price. -/
theorem head_sortDesc (l : List Part) (p : Part)
    (h : (sortDesc l).head? = some p) :
    ∃ i : Nat, l[i]? = some p ∧ (∀ q ∈ l, priceKey q ≤ priceKey p) ∧
      (∀ (j : Nat) (q : Part), j < i → l[j]? = some q → priceKey q < priceKey p) := by
  induction l generalizing p with
  | nil => simp [sortDesc] at h
  | cons x xs ih =>
    have hx : sortDesc (x :: xs) = insertDesc x (sortDesc xs) := rfl
    rw [hx] at h
    cases hs : sortDesc xs with
    | nil =>
      rw [hs] at h
      have hxs : xs = [] := by
        have hlen := length_sortDesc xs
        rw [hs] at hlen
        exact List.length_eq_zero.mp hlen.symm
      have hp : x = p := by simpa [insertDesc] using h
      refine ⟨0, by simpa using hp, ?_, ?_⟩
      · intro q hq
        rw [hxs] at hq
        have : q = x := by simpa using hq
        rw [this, hp]
      · intro j q hj _
        exact absurd hj (Nat.not_lt_zero j)
    | cons q qs =>
      have hq : (sortDesc xs).head? = some q := by rw [hs]; rfl
      obtain ⟨i, hgi, hmax, hbef⟩ := ih q hq
      rw [hs] at h
      unfold insertDesc at h
      split at h
      next hlt =>
        have hp : q = p := by simpa using h
        refine ⟨i + 1, ?_, ?_, ?_⟩
        · rw [← hp]
          simpa using hgi
        · intro r hr
          rcases List.mem_cons.mp hr with h1 | h1
          · rw [h1, ← hp]
            exact le_of_lt hlt
          · rw [← hp]
            exact hmax r h1
        · intro j r hj hr
          cases j with
          | zero =>
            have : x = r := by simpa using hr
            rw [← this, ← hp]
            exact hlt
          | succ k =>
            have hk : k < i := by omega
            have hr2 : xs[k]? = some r := by simpa using hr
            rw [← hp]
            exact hbef k r hk hr2
      next hge =>
        have hp : x = p := by simpa using h
        refine ⟨0, by simpa using hp, ?_, ?_⟩
        · intro r hr
          rcases List.mem_cons.mp hr with h1 | h1
          · rw [h1, hp]
          · rw [← hp]
            exact le_trans (hmax r h1) (not_lt.mp hge)
        · intro j r hj _
          exact absurd hj (Nat.not_lt_zero j)

/-- A nonempty survivor list gives a nonempty pool. -/
theorem pickPool_ne_nil (db : Database) (key : String) (budget : Frac)
    (cs : Constraints) (h : survivors db key budget cs ≠ []) :
    pickPool db key budget cs ≠ [] := by
  unfold pickPool
  split
  · split
    · exact h
    next hd5 =>
      intro he
      rw [he] at hd5
      exact hd5 rfl
  · exact h

/-! ### C3 -/

/-- C3 (counterexample): a DDR3-only CPU is the pick when it is the sole
affordable survivor, although it is not DDR4-capable - refuting the
claim that without DDR5 survivors the choice is made only among
DDR4-capable survivors. -/
theorem C3_counterexample :
    pick_part db3 ("cpu") (fOfInt 100) noConstraints = some cpuDdr3 ∧
      pyIn ("DDR4") (cpuDdr3.memSupport.getD "") = false ∧
      pyIn ("DDR5") (cpuDdr3.memSupport.getD "") = false := by
  exact ⟨by decide, by decide, by decide⟩

/-- C3 (amended): `_pick_part` returns `None` exactly when no catalogue
record passes the constraints with a nonzero price at most the
sub-budget; otherwise it returns the earliest highest-priced element of
the pool, where the pool is the DDR5-capable survivors for the CPU
category when any exist and all survivors otherwise (no DDR4
restriction). -/
theorem C3_theorem (db : Database) (key : String) (budget : Frac)
    (cs : Constraints) :
    (pick_part db key budget cs = none ↔ survivors db key budget cs = []) ∧
    (∀ p, pick_part db key budget cs = some p →
      ∃ i : Nat, (pickPool db key budget cs)[i]? = some p ∧
        (∀ q ∈ pickPool db key budget cs, priceKey q ≤ priceKey p) ∧
        (∀ (j : Nat) (q : Part), j < i → (pickPool db key budget cs)[j]? = some q →
          priceKey q < priceKey p)) := by
  constructor
  · constructor
    · intro h
      by_contra hne
      unfold pick_part at h
      rw [if_neg (by simpa [List.isEmpty_iff] using hne)] at h
      have hpool := pickPool_ne_nil db key budget cs hne
      have hsort := sortDesc_ne_nil _ hpool
      rw [List.head?_eq_none_iff] at h
      exact hsort h
    · intro h
      unfold pick_part
      rw [if_pos (by simp [h])]
  · intro p hp
    unfold pick_part at hp
    split at hp
    · exact absurd hp (by simp)
    · exact head_sortDesc _ p hp

/-- C3 (witness): the amended theorem applied to the one-CPU catalogue. -/
theorem C3_witness :
    pick_part db0 ("cpu") (fOfInt 200) noConstraints = some cpu0 ∧
      (∃ i : Nat, (pickPool db0 ("cpu") (fOfInt 200) noConstraints)[i]? = some cpu0 ∧
        (∀ q ∈ pickPool db0 ("cpu") (fOfInt 200) noConstraints,
          priceKey q ≤ priceKey cpu0) ∧
        (∀ (j : Nat) (q : Part), j < i →
          (pickPool db0 ("cpu") (fOfInt 200) noConstraints)[j]? = some q →
          priceKey q < priceKey cpu0)) := by
  exact ⟨by decide,
    (C3_theorem db0 ("cpu") (fOfInt 200) noConstraints).2 cpu0 (by decide)⟩

/-! ### C4 and C7 -/

/-- C4 (confirmed): when the CPU, motherboard and RAM picks succeed, the
GPU pick of `run_auto_build` is made with the empty constraint dict at a
budget equal to the GPU split plus the accumulated savings of the three
earlier picks (`gpu_budget_final`): if that pick fails the run fails at
the GPU step, and if it returns `g` then any returned build has `g` as
its GPU. -/
theorem C4_theorem (db : Database) (B : Frac) (purpose : String) (c m r : Part)
    (h1 : pick_part db ("cpu") (fMul B (splitsFor purpose).cpu) noConstraints = some c)
    (h2 : pick_part db ("motherboard") (fMul B (splitsFor purpose).motherboard)
        (get_constraints { cpu := some c }) = some m)
    (h3 : pick_part db ("memory") (fMul B (splitsFor purpose).ram)
        (get_constraints { cpu := some c, motherboard := some m }) = some r) :
    (pick_part db ("video-card") (gpu_budget_final B purpose c m r) noConstraints = none →
      run_auto_build db B purpose = (none, ["Failed to find a GPU within budget."])) ∧
    (∀ g, pick_part db ("video-card") (gpu_budget_final B purpose c m r) noConstraints = some g →
      run_auto_build db B purpose = (none, ["Failed to find a suitable PSU."]) ∨
        ∃ bld ws, run_auto_build db B purpose = (some bld, ws) ∧ bld.gpu = some g) := by
  constructor
  · intro h4
    simp only [run_auto_build, h1, h2, h3, h4]
  · intro g hg
    simp only [run_auto_build, h1, h2, h3, hg]
    cases hpsu : pick_part db ("power-supply") (fHalf (fMul B (splitsFor purpose).other))
        (get_constraints { cpu := some c, motherboard := some m, ram := some r, gpu := some g }) with
    | none =>
      left
      simp [hpsu]
    | some psu =>
      right
      cases hcase : pick_part db ("case") (fHalf (fMul B (splitsFor purpose).other))
          noConstraints with
      | none =>
        exact ⟨{ cpu := some c, motherboard := some m, ram := some r,
                 gpu := some g, psu := some psu },
          check_build { cpu := some c, motherboard := some m, ram := some r,
                        gpu := some g, psu := some psu },
          by simp [hpsu, hcase], rfl⟩
      | some k =>
        exact ⟨{ cpu := some c, motherboard := some m, ram := some r,
                 gpu := some g, psu := some psu, pcCase := some k },
          check_build { cpu := some c, motherboard := some m, ram := some r,
                        gpu := some g, psu := some psu, pcCase := some k },
          by simp [hpsu, hcase], rfl⟩

/-- C4 (witness): the theorem applied to the complete test catalogue,
where the rollover raises the GPU budget from 400 to 600. -/
theorem C4_witness :
    pick_part db0 ("video-card") (gpu_budget_final (fOfInt 1000) ("gaming") cpu0 mobo0 ram0)
        noConstraints = some gpu0 ∧
      (run_auto_build db0 (fOfInt 1000) ("gaming") = (none, ["Failed to find a suitable PSU."]) ∨
        ∃ bld ws, run_auto_build db0 (fOfInt 1000) ("gaming") = (some bld, ws) ∧
          bld.gpu = some gpu0) := by
  exact ⟨by decide,
    (C4_theorem db0 (fOfInt 1000) ("gaming") cpu0 mobo0 ram0 (by decide) (by decide)
      (by decide)).2 gpu0 (by decide)⟩

/-- C7 (confirmed): when the CPU pick succeeds and no motherboard
survives its sub-budget and the CPU-derived constraints,
`run_auto_build` returns an absent build together with the message
naming the chosen CPU and the required socket; and more generally every
returned build is complete in all required categories (no partial build
is ever returned). -/
theorem C7_theorem :
    (∀ (db : Database) (B : Frac) (purpose : String) (c : Part),
      pick_part db ("cpu") (fMul B (splitsFor purpose).cpu) noConstraints = some c →
      pick_part db ("motherboard") (fMul B (splitsFor purpose).motherboard)
        (get_constraints { cpu := some c }) = none →
      run_auto_build db B purpose =
        (none, [moboFailMsg c.name (get_constraints ({ cpu := some c } : Build)).socket])) ∧
    (∀ (db : Database) (B : Frac) (purpose : String) (bld : Build) (ws : List String),
      run_auto_build db B purpose = (some bld, ws) →
      bld.cpu.isSome = true ∧ bld.motherboard.isSome = true ∧ bld.ram.isSome = true ∧
        bld.gpu.isSome = true ∧ bld.psu.isSome = true) := by
  constructor
  · intro db B purpose c h1 h2
    simp only [run_auto_build, h1, h2]
  · intro db B purpose bld ws h
    simp only [run_auto_build] at h
    split at h
    · simp [Prod.mk.injEq] at h
    · split at h
      · simp [Prod.mk.injEq] at h
      · split at h
        · simp [Prod.mk.injEq] at h
        · split at h
          · simp [Prod.mk.injEq] at h
          · split at h
            · simp [Prod.mk.injEq] at h
            · split at h
              · rw [Prod.mk.injEq] at h
                obtain ⟨hb, _⟩ := h
                rw [Option.some.injEq] at hb
                rw [← hb]
                exact ⟨rfl, rfl, rfl, rfl, rfl⟩
              · rw [Prod.mk.injEq] at h
                obtain ⟨hb, _⟩ := h
                rw [Option.some.injEq] at hb
                rw [← hb]
                exact ⟨rfl, rfl, rfl, rfl, rfl⟩

/-- C7 (witness): the failure branch on the catalogue with no
motherboards, and the completeness clause on the successful run. -/
theorem C7_witness :
    run_auto_build dbNoMobo (fOfInt 1000) ("gaming") =
      (none, [moboFailMsg cpu0.name
        (get_constraints ({ cpu := some cpu0 } : Build)).socket]) ∧
      (build0.cpu.isSome = true ∧ build0.motherboard.isSome = true ∧
        build0.ram.isSome = true ∧ build0.gpu.isSome = true ∧
        build0.psu.isSome = true) := by
  exact ⟨C7_theorem.1 dbNoMobo (fOfInt 1000) ("gaming") cpu0 (by decide) (by decide),
    C7_theorem.2 db0 (fOfInt 1000) ("gaming") build0 [] (by decide)⟩

/-! ### Helper lemmas about dict records and spec copying -/

/-- Reading the key just written. -/
theorem dictGet_dictSet_self (k v : String) (r : Record) :
    dictGet k (dictSet k v r) = some v := by
  induction r with
  | nil => simp [dictGet, dictSet]
  | cons e rest ih =>
    unfold dictSet
    split
    next heq => simp [dictGet, List.find?, heq]
    next hne =>
      have hb : (e.1 == k) = false := by simpa using hne
      simpa [dictGet, List.find?, hb] using ih

/-- Writing one key leaves every other key unchanged. -/
theorem dictGet_dictSet_ne (k k' v : String) (r : Record) (h : k' ≠ k) :
    dictGet k' (dictSet k v r) = dictGet k' r := by
  induction r with
  | nil =>
    have hb : (k == k') = false := by simpa using (fun he => h (by rw [he]))
    simp [dictGet, dictSet, List.find?, hb]
  | cons e rest ih =>
    unfold dictSet
    split
    next heq =>
      have hb : (k == k') = false := by
        simp only [beq_eq_false_iff_ne]
        intro he
        exact h he.symm
      simp [dictGet, List.find?, heq, hb]
    next hne =>
      cases hb : (e.1 == k') with
      | true => simp [dictGet, List.find?, hb]
      | false => simpa [dictGet, List.find?, hb] using ih

/-- Writing a value that is already there changes nothing. -/
theorem dictSet_id (k v : String) (r : Record) (h : dictGet k r = some v) :
    dictSet k v r = r := by
  induction r with
  | nil => simp [dictGet] at h
  | cons e rest ih =>
    unfold dictSet
    split
    next heq =>
      have hb : (e.1 == k) = true := by simpa using heq
      have hv : e.2 = v := by
        simpa [dictGet, List.find?, hb] using h
      rw [← hv]
    next hne =>
      have hb : (e.1 == k) = false := by simpa using hne
      have h2 : dictGet k rest = some v := by
        simpa [dictGet, List.find?, hb] using h
      rw [ih h2]

/-- Copying a spec list never touches keys outside the list. -/
theorem dictGet_copy_not_mem (specs : List String) (master : Record) (k : String) :
    ∀ p : Record, k ∉ specs →
      dictGet k (copy_specs specs master p) = dictGet k p := by
  induction specs with
  | nil => intro p _; rfl
  | cons s ss ih =>
    intro p h
    have hk : k ≠ s ∧ k ∉ ss := by
      constructor
      · intro he; exact h (by rw [he]; exact List.mem_cons_self s ss)
      · intro hm; exact h (List.mem_cons_of_mem s hm)
    simp only [copy_specs, List.foldl_cons]
    have hstep : dictGet k (match dictGet s master with
        | some v => dictSet s v p
        | none => p) = dictGet k p := by
      cases hm : dictGet s master with
      | none => rfl
      | some v => exact dictGet_dictSet_ne s k v p hk.1
    calc dictGet k (List.foldl _ _ ss) = _ := ih _ hk.2
      _ = dictGet k p := hstep

/-- After copying, every listed key carries the master value it had. -/
theorem dictGet_copy_mem (specs : List String) (master : Record) (k v : String)
    (hm : dictGet k master = some v) :
    ∀ p : Record, k ∈ specs →
      dictGet k (copy_specs specs master p) = some v := by
  induction specs with
  | nil => intro p h; exact absurd h (List.not_mem_nil k)
  | cons s ss ih =>
    intro p h
    by_cases hss : k ∈ ss
    · simp only [copy_specs, List.foldl_cons]
      exact ih _ hss
    · have hks : k = s := by
        rcases List.mem_cons.mp h with h1 | h1
        · exact h1
        · exact absurd h1 hss
      subst hks
      simp only [copy_specs, List.foldl_cons, hm]
      have : copy_specs ss master (dictSet k v p) = List.foldl (fun p k =>
          match dictGet k master with
          | some v => dictSet k v p
          | none => p) (dictSet k v p) ss := rfl
      rw [← this, dictGet_copy_not_mem ss master k _ hss, dictGet_dictSet_self]

/-- Copying is the identity when the record already carries all the
master values of the listed keys. -/
theorem copy_specs_id (specs : List String) (master : Record) :
    ∀ p : Record,
      (∀ k ∈ specs, ∀ v, dictGet k master = some v → dictGet k p = some v) →
      copy_specs specs master p = p := by
  induction specs with
  | nil => intro p _; rfl
  | cons s ss ih =>
    intro p h
    have hstep : (match dictGet s master with
        | some v => dictSet s v p
        | none => p) = p := by
      cases hm : dictGet s master with
      | none => rfl
      | some v => exact dictSet_id s v p (h s (List.mem_cons_self s ss) v hm)
    simp only [copy_specs, List.foldl_cons, hstep]
    exact ih p (fun k hk v hv => h k (List.mem_cons_of_mem s hk) v hv)

/-- Enriching one record twice is the same as enriching it once, as long
as the copied keys do not include the two matching fields. -/
theorem enrich_one_idem (maps : MasterMap) (pk mf : String) (specs : List String)
    (hname : ("name") ∉ specs) (hchip : ("chipset") ∉ specs) (p : Record) :
    enrich_one maps pk mf specs (enrich_one maps pk mf specs p) =
      enrich_one maps pk mf specs p := by
  cases hst : enrich_search_term pk mf p with
  | none =>
    have h1 : enrich_one maps pk mf specs p = p := by simp [enrich_one, hst]
    rw [h1, h1]
  | some t =>
    cases hfind : find_master_spec maps (dictGet ("name") p) (dictGet ("chipset") p) with
    | none =>
      have h1 : enrich_one maps pk mf specs p = p := by simp [enrich_one, hst, hfind]
      rw [h1, h1]
    | some master =>
      have h1 : enrich_one maps pk mf specs p = copy_specs specs master p := by
        simp [enrich_one, hst, hfind]
      rw [h1]
      have hn : dictGet ("name") (copy_specs specs master p) = dictGet ("name") p :=
        dictGet_copy_not_mem specs master ("name") p hname
      have hc : dictGet ("chipset") (copy_specs specs master p) = dictGet ("chipset") p :=
        dictGet_copy_not_mem specs master ("chipset") p hchip
      have hfind2 : find_master_spec maps
          (dictGet ("name") (copy_specs specs master p))
          (dictGet ("chipset") (copy_specs specs master p)) = some master := by
        rw [hn, hc, hfind]
      cases hst2 : enrich_search_term pk mf (copy_specs specs master p) with
      | none => simp [enrich_one, hst2]
      | some t2 =>
        simp only [enrich_one, hst2, hfind2]
        exact copy_specs_id specs master _ (fun k hk v hv => dictGet_copy_mem specs master k v hv p hk)

/-! ### C9 -/

/-- C9 (counterexample): when the copied spec keys include the matching
field `name`, running the enrichment pass twice with identical arguments
changes the catalogue again - the first pass rewrites the name, the
second pass therefore matches a different master record. -/
theorem C9_counterexample :
    enrich_product_database
        (enrich_product_database prods9 mmaps9 ("cpu") ("name") [("name")])
        mmaps9 ("cpu") ("name") [("name")] ≠
      enrich_product_database prods9 mmaps9 ("cpu") ("name") [("name")] := by
  decide

/-- C9 (amended): the enrichment pass is idempotent whenever the copied
spec keys include neither `name` nor `chipset`, the two fields
`find_master_spec` matches on - in particular for every catalogue,
master map and category: a second run with the same arguments leaves
every record identical. -/
theorem C9_theorem (products : List Record) (maps : MasterMap)
    (product_key match_field : String) (specs : List String)
    (hname : ("name") ∉ specs) (hchip : ("chipset") ∉ specs) :
    enrich_product_database
        (enrich_product_database products maps product_key match_field specs)
        maps product_key match_field specs =
      enrich_product_database products maps product_key match_field specs := by
  unfold enrich_product_database
  rw [List.map_map]
  apply List.map_congr_left
  intro a _
  exact enrich_one_idem maps product_key match_field specs hname hchip a

/-- C9 (witness): the theorem applied to a catalogue enriched with a
socket spec, the shape of the startup calls. -/
theorem C9_witness :
    (("name") ∉ [("Physical - Socket")] ∧ ("chipset") ∉ [("Physical - Socket")]) ∧
      enrich_product_database
          (enrich_product_database prods9b mmaps9b ("cpu") ("name") [("Physical - Socket")])
          mmaps9b ("cpu") ("name") [("Physical - Socket")] =
        enrich_product_database prods9b mmaps9b ("cpu") ("name") [("Physical - Socket")] := by
  exact ⟨⟨by decide, by decide⟩,
    C9_theorem prods9b mmaps9b ("cpu") ("name") [("Physical - Socket")] (by decide) (by decide)⟩

end BroBuild
